import Mathlib

/-!
Shallow embedding of `src/python/ct/crypto/cert.py` (X509 Certificate API of
trawick/certificate-transparency).

The ASN.1 structural decoder/encoder, the per-extension payload decoder, the
PEM framing layer and `hashlib` are external collaborators of this module
(they live outside the repository slice under verification).  They are
represented here either as explicit function parameters (structural decode
and encode, hash digests) or as already-decoded data carried by the
`ASN1Certificate` structure (per-extension `decoded_value`, `gmtime`-decoded
validity instants).  Everything that `cert.py` itself computes is translated
directly from its source.
-/

set_option autoImplicit false

namespace CertSpec

/-- Object identifiers, as their dotted-integer component lists
(the `ct.crypto.asn1.oid` registry is external; only the constants used by
`cert.py` are reproduced). -/
abbrev OID := List Nat

def ID_CE_BASIC_CONSTRAINTS : OID := [2, 5, 29, 19]

def ID_CE_KEY_USAGE : OID := [2, 5, 29, 15]

def ID_CE_SUBJECT_ALT_NAME : OID := [2, 5, 29, 17]

def ID_CE_EXT_KEY_USAGE : OID := [2, 5, 29, 37]

def ID_CE_SUBJECT_KEY_IDENTIFIER : OID := [2, 5, 29, 14]

def ID_CE_AUTHORITY_KEY_IDENTIFIER : OID := [2, 5, 29, 35]

def ID_CE_CERTIFICATE_POLICIES : OID := [2, 5, 29, 32]

def ID_CE_CRL_DISTRIBUTION_POINTS : OID := [2, 5, 29, 31]

def ID_PE_AUTHORITY_INFO_ACCESS : OID := [1, 3, 6, 1, 5, 5, 7, 1, 1]

def ID_AD_CA_ISSUERS : OID := [1, 3, 6, 1, 5, 5, 7, 48, 2]

def ID_AD_OCSP : OID := [1, 3, 6, 1, 5, 5, 7, 48, 1]

def ID_AT_COMMON_NAME : OID := [2, 5, 4, 3]

/-- UTC instants (`time.struct_time` values in the source).  `struct_time`
comparison is lexicographic tuple comparison, a linear order; seconds since
the epoch model it faithfully for the comparisons `cert.py` performs. -/
abbrev Time := Int

/-- GeneralName tag constants from `ct.crypto.asn1.x509_name` (external
registry; the tag numbers are the ASN.1 context tags of GeneralName). -/
def OTHER_NAME : Nat := 0

def RFC822_NAME : Nat := 1

def DNS_NAME : Nat := 2

def X400_ADDRESS_NAME : Nat := 3

def DIRECTORY_NAME : Nat := 4

def EDI_PARTY_NAME : Nat := 5

def URI_NAME : Nat := 6

def IP_ADDRESS_NAME : Nat := 7

def REGISTERED_ID_NAME : Nat := 8

/-- An ASN.1 GeneralName: a tagged choice.  `componentKey` is the tag (one of
the constants above), `componentValue` the payload rendered opaquely. -/
structure GeneralName where
  componentKey : Nat
  componentValue : String
  deriving DecidableEq, Repr

/-- One PolicyInformation entry of a CertificatePolicies extension value. -/
structure PolicyInformation where
  policy_identifier : OID
  qualifiers : List Nat
  deriving DecidableEq, Repr

/-- One AccessDescription entry of an AuthorityInfoAccess extension value. -/
structure AccessDescription where
  access_method : OID
  access_location : GeneralName
  deriving DecidableEq, Repr

/-- Opaque handle for an ASN.1 DistributionPoint entry; `cert.py` returns
these unexamined. -/
abbrev DistributionPoint := Nat

/-- The typed extension values produced by the external per-extension
decoder (`decoded_value` in the source).  One variant per payload grammar
consumed by `cert.py`. -/
inductive TypedValue where
  | basicConstraints (cA : Bool) (pathLenConstraint : Option Int)
  | keyUsage (bits : List Bool)
  | extKeyUsage (oids : List OID)
  | generalNames (names : List GeneralName)
  | certificatePolicies (ps : List PolicyInformation)
  | authorityKeyIdentifier (keyIdentifier : Option (List Nat))
      (authorityCertIssuer : Option (List GeneralName))
      (authorityCertSerialNumber : Option Int)
  | authorityInfoAccess (descriptions : List AccessDescription)
  | keyIdentifier (octets : List Nat)
  | distributionPoints (points : List DistributionPoint)
  deriving DecidableEq, Repr

/-- The `extnValue` field object of an extension: raw payload octets plus the
`decoded_value` attribute computed by the external per-extension decoder
(`none` = payload present but unrecognized or unparseable). -/
structure ExtensionValue where
  octets : List Nat
  decoded_value : Option TypedValue
  deriving DecidableEq, Repr

/-- One entry of the TBSCertificate extension sequence. -/
structure Extension where
  extnID : OID
  critical : Bool
  extnValue : ExtensionValue
  deriving DecidableEq, Repr

/-- The certificate validity field.  `notBefore` and `notAfter` hold the
`gmtime()`-decoded instants; `none` models an undecodable time value (the
external decode raises there, surfaced by the accessors below). -/
structure Validity where
  notBefore : Option Time
  notAfter : Option Time
  deriving DecidableEq, Repr

/-- The decoded TBSCertificate body (only the fields `cert.py` consumes are
modelled; the rest passes through the opaque encoder parameter).  The
`extensions` field is optional in the ASN.1 grammar, hence `Option`. -/
structure TBSCertificate where
  version : Nat
  serialNumber : Int
  validity : Validity
  extensions : Option (List Extension)
  deriving DecidableEq, Repr

/-- The decoded `x509.Certificate` ASN.1 object (`self._asn1_cert`). -/
structure ASN1Certificate where
  tbsCertificate : TBSCertificate
  deriving DecidableEq, Repr

/-- `ct.crypto.error.ASN1Error`: structural decode failures (external) and
the "Multiple extensions" error raised by `Certificate.__init__`. -/
inductive ASN1Error where
  | structuralError (code : Nat)
  | multipleExtensions
  deriving DecidableEq, Repr

/-- `cert.CertificateError` variants raised by the accessors, by message:
"Multiple extension values", "Corrupt or unrecognized extension",
"Policy asserted more than once", corrupt time values, corrupt common name
attributes.  `typeMismatch` models the dynamic typing failure of projecting
a decoded value of the wrong shape (unreachable for well-typed decoder
output); `unsupportedHashAlgorithm` models the ValueError `hashlib.new`
raises on an unknown algorithm name. -/
inductive CertificateError where
  | multipleExtensionValues
  | corruptExtension (extn_id : OID)
  | duplicatePolicy (policy_oid : OID)
  | corruptTime
  | corruptCommonName
  | typeMismatch
  | unsupportedHashAlgorithm
  deriving DecidableEq, Repr

/-- The `Certificate` wrapper object: it holds the decoded ASN.1 certificate.
Construction goes through `Certificate.init` below. -/
structure Certificate where
  asn1_cert : ASN1Certificate
  deriving DecidableEq, Repr

/-- `self._asn1_cert["tbsCertificate"]["extensions"] or []`. -/
def certExtensionsOf (a : ASN1Certificate) : List Extension :=
  a.tbsCertificate.extensions.getD []

/-- `Certificate._has_multiple_extension_values`: counts extension
identifiers (a `collections.Counter`) and reports whether any identifier
occurs more than once. -/
def has_multiple_extension_values (a : ASN1Certificate) : Bool :=
  let extns := certExtensionsOf a
  let extn_ids := extns.map (fun e => e.extnID)
  extn_ids.any (fun i => 1 < extn_ids.count i)

/-- `Certificate.__init__` after the external structural decode: in strict
mode a certificate with a repeated extension identifier is rejected with
`ASN1Error("Multiple extensions")`. -/
def Certificate.init (a : ASN1Certificate) (strict_der : Bool) :
    Except ASN1Error Certificate :=
  if strict_der && has_multiple_extension_values a then
    .error .multipleExtensions
  else
    .ok ⟨a⟩

/-- `Certificate.from_der`: the external structural decoder (passed as the
parameter `dec`, mirroring `x509.Certificate.decode(der, strict)`) followed
by the constructor checks. -/
def from_der (dec : List Nat → Bool → Except ASN1Error ASN1Certificate)
    (der_string : List Nat) (strict_der : Bool) : Except ASN1Error Certificate :=
  match dec der_string strict_der with
  | .error e => .error e
  | .ok a => Certificate.init a strict_der

/-- The extension sequence of a constructed certificate. -/
def certExtensions (c : Certificate) : List Extension :=
  certExtensionsOf c.asn1_cert

/-- `Certificate._get_decoded_extension_values`: all decoded values whose
extension identifier matches; raises the corrupt-extension error if any
matching entry failed to decode. -/
def get_decoded_extension_values (c : Certificate) (extn_id : OID) :
    Except CertificateError (List TypedValue) :=
  let extn_values :=
    ((certExtensions c).filter (fun e => e.extnID == extn_id)).map
      (fun e => e.extnValue)
  if extn_values.isEmpty then
    .ok []
  else
    let decoded_values := extn_values.map (fun e => e.decoded_value)
    if decoded_values.any (fun v => v.isNone) then
      .error (.corruptExtension extn_id)
    else
      .ok (decoded_values.filterMap id)

/-- `Certificate._get_decoded_extension_value`: resolves a single-valued
extension; `none` when absent, the sole value when unique, the
multiple-extension-values error when ambiguous. -/
def get_decoded_extension_value (c : Certificate) (extn_id : OID) :
    Except CertificateError (Option TypedValue) :=
  match get_decoded_extension_values c extn_id with
  | .error e => .error e
  | .ok [] => .ok none
  | .ok [v] => .ok (some v)
  | .ok (_ :: _ :: _) => .error .multipleExtensionValues

/-- `Certificate.basic_constraint_ca`: the `cA` component of the (single)
BasicConstraints extension value, or `none` when absent. -/
def basic_constraint_ca (c : Certificate) : Except CertificateError (Option Bool) :=
  match get_decoded_extension_value c ID_CE_BASIC_CONSTRAINTS with
  | .error e => .error e
  | .ok none => .ok none
  | .ok (some (.basicConstraints cA _)) => .ok (some cA)
  | .ok (some _) => .error .typeMismatch

/-- `Certificate.basic_constraint_path_length`: the `pathLenConstraint`
component, or `none` when the extension is absent. -/
def basic_constraint_path_length (c : Certificate) :
    Except CertificateError (Option (Option Int)) :=
  match get_decoded_extension_value c ID_CE_BASIC_CONSTRAINTS with
  | .error e => .error e
  | .ok none => .ok none
  | .ok (some (.basicConstraints _ pl)) => .ok (some pl)
  | .ok (some _) => .error .typeMismatch

/-- `KeyUsage.has_bit_set` of the external bit-string type. -/
def hasBitSet (bits : List Bool) (i : Nat) : Bool :=
  bits.getD i false

/-- `KeyUsage.bits_set` of the external bit-string type: the indices of the
asserted bits. -/
def bitsSet (bits : List Bool) : List Nat :=
  (List.range bits.length).filter (fun i => bits.getD i false)

/-- `Certificate.key_usage`: whether the given bit of the KeyUsage extension
is asserted; `none` when the extension is absent. -/
def key_usage (c : Certificate) (usage_bit : Nat) :
    Except CertificateError (Option Bool) :=
  match get_decoded_extension_value c ID_CE_KEY_USAGE with
  | .error e => .error e
  | .ok none => .ok none
  | .ok (some (.keyUsage bits)) => .ok (some (hasBitSet bits usage_bit))
  | .ok (some _) => .error .typeMismatch

/-- `Certificate.key_usages`: all asserted key usage bits, the empty list
when the extension is absent (an all-clear bit string is falsy in the
source, but its `bits_set()` is the empty list as well). -/
def key_usages (c : Certificate) : Except CertificateError (List Nat) :=
  match get_decoded_extension_value c ID_CE_KEY_USAGE with
  | .error e => .error e
  | .ok none => .ok []
  | .ok (some (.keyUsage bits)) => .ok (bitsSet bits)
  | .ok (some _) => .error .typeMismatch

/-- `Certificate.extended_key_usage`: membership of the given usage OID in
the ExtendedKeyUsage extension value; `none` when absent. -/
def extended_key_usage (c : Certificate) (ext_key_usage : OID) :
    Except CertificateError (Option Bool) :=
  match get_decoded_extension_value c ID_CE_EXT_KEY_USAGE with
  | .error e => .error e
  | .ok none => .ok none
  | .ok (some (.extKeyUsage oids)) => .ok (some (oids.contains ext_key_usage))
  | .ok (some _) => .error .typeMismatch

/-- `Certificate.extended_key_usages`: the asserted usage OIDs, the empty
list when the extension is absent (`... or []`). -/
def extended_key_usages (c : Certificate) : Except CertificateError (List OID) :=
  match get_decoded_extension_value c ID_CE_EXT_KEY_USAGE with
  | .error e => .error e
  | .ok none => .ok []
  | .ok (some (.extKeyUsage oids)) => .ok oids
  | .ok (some _) => .error .typeMismatch

/-- `Certificate.subject_key_identifier`: the decoded value is returned
unexamined, so no projection is applied. -/
def subject_key_identifier (c : Certificate) :
    Except CertificateError (Option TypedValue) :=
  get_decoded_extension_value c ID_CE_SUBJECT_KEY_IDENTIFIER

/-- The component selectors of an AuthorityKeyIdentifier value
(`x509_extension.KEY_IDENTIFIER` and friends, an external registry). -/
inductive AkidComponent where
  | keyIdentifier
  | authorityCertIssuer
  | authorityCertSerialNumber
  deriving DecidableEq, Repr

/-- The possible component values of an AuthorityKeyIdentifier value. -/
inductive AkidValue where
  | keyId (octets : List Nat)
  | certIssuer (names : List GeneralName)
  | certSerialNumber (n : Int)
  deriving DecidableEq, Repr

/-- `akid[identifier_type]` on the decoded AuthorityKeyIdentifier value:
the selected optional component, `none` when that component is absent. -/
def akidComponent (kid : Option (List Nat)) (issuer : Option (List GeneralName))
    (serial : Option Int) : AkidComponent → Option AkidValue
  | .keyIdentifier => kid.map .keyId
  | .authorityCertIssuer => issuer.map .certIssuer
  | .authorityCertSerialNumber => serial.map .certSerialNumber

/-- `Certificate.authority_key_identifier`: the selected component of the
(single) AuthorityKeyIdentifier extension value, `none` when the component
or the whole extension is absent. -/
def authority_key_identifier (c : Certificate) (identifier_type : AkidComponent) :
    Except CertificateError (Option AkidValue) :=
  match get_decoded_extension_value c ID_CE_AUTHORITY_KEY_IDENTIFIER with
  | .error e => .error e
  | .ok none => .ok none
  | .ok (some (.authorityKeyIdentifier kid issuer serial)) =>
      .ok (akidComponent kid issuer serial identifier_type)
  | .ok (some _) => .error .typeMismatch

/-- `Certificate.authority_key_identifier` called without an argument: the
Python parameter default is `x509_ext.KEY_IDENTIFIER`. -/
def authority_key_identifier_default (c : Certificate) :
    Except CertificateError (Option AkidValue) :=
  authority_key_identifier c .keyIdentifier

/-- `Certificate.policies`: the PolicyInformation list of the (single)
CertificatePolicies extension value, the empty list when absent
(`policies or []`; an empty decoded list is falsy and maps to `[]` too). -/
def policies (c : Certificate) :
    Except CertificateError (List PolicyInformation) :=
  match get_decoded_extension_value c ID_CE_CERTIFICATE_POLICIES with
  | .error e => .error e
  | .ok none => .ok []
  | .ok (some (.certificatePolicies ps)) => .ok ps
  | .ok (some _) => .error .typeMismatch

/-- `Certificate.policy`: the policy entry whose identifier matches;
raises the duplicate-policy error when the same OID is asserted more than
once inside the policies list. -/
def policy (c : Certificate) (policy_oid : OID) :
    Except CertificateError (Option PolicyInformation) :=
  match policies c with
  | .error e => .error e
  | .ok ps =>
    if ps.isEmpty then .ok none
    else
      match ps.filter (fun p => p.policy_identifier == policy_oid) with
      | [] => .ok none
      | [p] => .ok (some p)
      | _ :: _ :: _ => .error (.duplicatePolicy policy_oid)

/-- `Certificate.has_policy`. -/
def has_policy (c : Certificate) (policy_oid : OID) :
    Except CertificateError Bool :=
  match policy c policy_oid with
  | .error e => .error e
  | .ok p => .ok p.isSome

/-- `Certificate.crl_distribution_points`: the DistributionPoint list, the
empty list when the extension is absent (`... or []`). -/
def crl_distribution_points (c : Certificate) :
    Except CertificateError (List DistributionPoint) :=
  match get_decoded_extension_value c ID_CE_CRL_DISTRIBUTION_POINTS with
  | .error e => .error e
  | .ok none => .ok []
  | .ok (some (.distributionPoints dps)) => .ok dps
  | .ok (some _) => .error .typeMismatch

/-- `Certificate.ca_issuers`: the access locations of the AIA entries whose
access method is caIssuers; the empty list when the extension is absent. -/
def ca_issuers (c : Certificate) : Except CertificateError (List GeneralName) :=
  match get_decoded_extension_value c ID_PE_AUTHORITY_INFO_ACCESS with
  | .error e => .error e
  | .ok none => .ok []
  | .ok (some (.authorityInfoAccess descs)) =>
      .ok ((descs.filter (fun a => a.access_method == ID_AD_CA_ISSUERS)).map
        (fun a => a.access_location))
  | .ok (some _) => .error .typeMismatch

/-- `Certificate.ocsp_responders`: the access locations of the AIA entries
whose access method is OCSP; the empty list when the extension is absent. -/
def ocsp_responders (c : Certificate) : Except CertificateError (List GeneralName) :=
  match get_decoded_extension_value c ID_PE_AUTHORITY_INFO_ACCESS with
  | .error e => .error e
  | .ok none => .ok []
  | .ok (some (.authorityInfoAccess descs)) =>
      .ok ((descs.filter (fun a => a.access_method == ID_AD_OCSP)).map
        (fun a => a.access_location))
  | .ok (some _) => .error .typeMismatch

/-- Projects a decoded SAN extension value to its GeneralName list
(`list(san)` in the source; any other shape is a dynamic typing failure). -/
def asGeneralNames : TypedValue → Option (List GeneralName)
  | .generalNames names => some names
  | _ => none

/-- Projects every decoded SAN extension value to its GeneralName list,
failing if any value has the wrong shape. -/
def asGeneralNamesList : List TypedValue → Option (List (List GeneralName))
  | [] => some []
  | v :: rest =>
    match asGeneralNames v, asGeneralNamesList rest with
    | some l, some ls => some (l :: ls)
    | _, _ => none

/-- `Certificate.subject_alternative_names`: every matching SAN extension
value flattened into one list (`sum([list(san) for san in sans], [])`). -/
def subject_alternative_names (c : Certificate) :
    Except CertificateError (List GeneralName) :=
  match get_decoded_extension_values c ID_CE_SUBJECT_ALT_NAME with
  | .error e => .error e
  | .ok sans =>
    match asGeneralNamesList sans with
    | none => .error .typeMismatch
    | some ls => .ok ls.flatten

/-- `Certificate._get_subject_alt_names_by_type`: per SAN extension value,
the component values whose tag matches, concatenated across values. -/
def get_subject_alt_names_by_type (c : Certificate) (san_type : Nat) :
    Except CertificateError (List String) :=
  match get_decoded_extension_values c ID_CE_SUBJECT_ALT_NAME with
  | .error e => .error e
  | .ok sans =>
    match asGeneralNamesList sans with
    | none => .error .typeMismatch
    | some ls =>
        .ok (ls.map (fun san =>
          (san.filter (fun n => n.componentKey == san_type)).map
            (fun n => n.componentValue))).flatten

/-- `Certificate.subject_dns_names`. -/
def subject_dns_names (c : Certificate) : Except CertificateError (List String) :=
  get_subject_alt_names_by_type c DNS_NAME

/-- `Certificate.subject_ip_addresses`. -/
def subject_ip_addresses (c : Certificate) : Except CertificateError (List String) :=
  get_subject_alt_names_by_type c IP_ADDRESS_NAME

/-- `Certificate.not_before`: the decoded notBefore instant; the external
`gmtime()` decode failure surfaces as a corrupt-time error. -/
def not_before (c : Certificate) : Except CertificateError Time :=
  match c.asn1_cert.tbsCertificate.validity.notBefore with
  | none => .error .corruptTime
  | some t => .ok t

/-- `Certificate.not_after`. -/
def not_after (c : Certificate) : Except CertificateError Time :=
  match c.asn1_cert.tbsCertificate.validity.notAfter with
  | none => .error .corruptTime
  | some t => .ok t

/-- `Certificate.is_temporally_valid_at`: the chained Python comparison
`not_before() <= gmtime <= not_after()` evaluates `not_after()` only when
the first comparison holds, which the nested match reproduces. -/
def is_temporally_valid_at (c : Certificate) (gmtime : Time) :
    Except CertificateError Bool :=
  match not_before c with
  | .error e => .error e
  | .ok nb =>
    if nb ≤ gmtime then
      match not_after c with
      | .error e => .error e
      | .ok na => .ok (decide (gmtime ≤ na))
    else
      .ok false

/-- `Certificate.is_expired`: `now > not_after()`, strict; the current time
`time.gmtime()` is passed explicitly as `now`. -/
def is_expired (c : Certificate) (now : Time) : Except CertificateError Bool :=
  match not_after c with
  | .error e => .error e
  | .ok na => .ok (decide (na < now))

/-- `Certificate.is_not_yet_valid`: `now < not_before()`, strict. -/
def is_not_yet_valid (c : Certificate) (now : Time) :
    Except CertificateError Bool :=
  match not_before c with
  | .error e => .error e
  | .ok nb => .ok (decide (now < nb))

/-- `Certificate.is_temporally_valid_now` with the current time passed
explicitly. -/
def is_temporally_valid_now (c : Certificate) (now : Time) :
    Except CertificateError Bool :=
  is_temporally_valid_at c now

/-- `Certificate.to_der`: the external structural encoder applied to the
held ASN.1 certificate (`self._asn1_cert.encode()`), with the encoder
passed as the parameter `enc`. -/
def to_der (enc : ASN1Certificate → List Nat) (c : Certificate) : List Nat :=
  enc c.asn1_cert

/-- `Certificate.is_identical_to`: byte equality of the DER encodings. -/
def is_identical_to (enc : ASN1Certificate → List Nat) (c other_cert : Certificate) :
    Bool :=
  to_der enc c == to_der enc other_cert

/-- Modelled from the spec: the fixed supported set of `hashlib` algorithm
names, "Algorithms always present are md5, sha1, sha224, sha256, sha384,
sha512"; `hashlib` itself is external to the repository slice. -/
def supported_hash_algorithms : List String :=
  ["md5", "sha1", "sha224", "sha256", "sha384", "sha512"]

/-- `Certificate.fingerprint`: digest of the DER encoding under the named
algorithm.  The digest computation (`hashlib`) is external and passed as
the parameter `digest`; per the spec, names outside the supported set fail
with the unsupported-hash-algorithm error (the ValueError of
`hashlib.new`). -/
def fingerprint (digest : String → List Nat → List Nat)
    (enc : ASN1Certificate → List Nat) (c : Certificate) (hashfunc : String) :
    Except CertificateError (List Nat) :=
  if hashfunc ∈ supported_hash_algorithms then
    .ok (digest hashfunc (to_der enc c))
  else
    .error .unsupportedHashAlgorithm

/-- `certs_from_pem` over the DER blocks produced by the external PEM
framing layer (`pem.pem_blocks`, passed here as the already-framed block
list): each block is decoded with `from_der`; a failing block either stops
the generator with the error (skip_invalid_blobs false) or is silently
skipped (skip_invalid_blobs true).  The result pairs the certificates
yielded before termination with the propagated error, if any. -/
def certs_from_pem (dec : List Nat → Bool → Except ASN1Error ASN1Certificate)
    (skip_invalid_blobs strict_der : Bool) :
    List (List Nat) → List Certificate × Option ASN1Error
  | [] => ([], none)
  | der_cert :: rest =>
    match from_der dec der_cert strict_der with
    | .ok cert =>
        let (certs, err) := certs_from_pem dec skip_invalid_blobs strict_der rest
        (cert :: certs, err)
    | .error e =>
        if skip_invalid_blobs then
          certs_from_pem dec skip_invalid_blobs strict_der rest
        else
          ([], some e)

/-! ## Helper lemmas -/

lemma count_map_extnID (extns : List Extension) (i : OID) :
    (extns.map (fun e => e.extnID)).count i =
      (extns.filter (fun e => e.extnID == i)).length := by
  induction extns with
  | nil => simp
  | cons e t ih =>
    cases h : (e.extnID == i) <;>
      simp [List.count_cons, List.filter_cons, h, ih]

lemma filter_length_le_one_of_no_duplicates (a : ASN1Certificate)
    (h : has_multiple_extension_values a = false) (i : OID) :
    ((certExtensionsOf a).filter (fun e => e.extnID == i)).length ≤ 1 := by
  by_contra hgt
  push_neg at hgt
  rw [← count_map_extnID] at hgt
  have hmem : i ∈ (certExtensionsOf a).map (fun e => e.extnID) := by
    have hpos : 0 < ((certExtensionsOf a).map (fun e => e.extnID)).count i := by
      omega
    exact List.count_pos_iff.mp hpos
  have htrue : has_multiple_extension_values a = true := by
    unfold has_multiple_extension_values
    simp only [List.any_eq_true]
    exact ⟨i, hmem, by simpa using hgt⟩
  rw [h] at htrue
  exact Bool.false_ne_true htrue

lemma init_strict_ok (a : ASN1Certificate) (cert : Certificate)
    (h : Certificate.init a true = .ok cert) :
    cert = ⟨a⟩ ∧ has_multiple_extension_values a = false := by
  cases hM : has_multiple_extension_values a with
  | true => simp [Certificate.init, hM] at h
  | false =>
    simp [Certificate.init, hM] at h
    exact ⟨h.symm, rfl⟩

lemma strict_resolve_ne_mev (a : ASN1Certificate) (cert : Certificate)
    (h : Certificate.init a true = .ok cert) (extn_id : OID) :
    get_decoded_extension_value cert extn_id ≠
      .error .multipleExtensionValues := by
  obtain ⟨hc, hM⟩ := init_strict_ok a cert h
  subst hc
  have hlen := filter_length_le_one_of_no_duplicates a hM extn_id
  cases hl : (certExtensionsOf a).filter (fun e => e.extnID == extn_id) with
  | nil =>
    simp [get_decoded_extension_value, get_decoded_extension_values,
      certExtensions, hl]
  | cons e t =>
    cases t with
    | nil =>
      cases hd : e.extnValue.decoded_value with
      | none =>
        simp [get_decoded_extension_value, get_decoded_extension_values,
          certExtensions, hl, hd]
      | some v =>
        simp [get_decoded_extension_value, get_decoded_extension_values,
          certExtensions, hl, hd]
    | cons e2 t2 =>
      rw [hl] at hlen
      simp at hlen

/-! ## C1 -/

/-- C1: once a certificate is successfully constructed in strict mode
(strict_der true), no accessor can raise the multiple-extension-values
error: single-value resolution never reaches its ambiguity branch, and
neither do any of the accessors built on it, because duplicate extension
identifiers were already rejected at construction. -/
theorem c1_strict_no_multiple_extension_values (a : ASN1Certificate)
    (cert : Certificate) (h : Certificate.init a true = .ok cert) :
    (∀ extn_id : OID, get_decoded_extension_value cert extn_id ≠
      .error .multipleExtensionValues) ∧
    basic_constraint_ca cert ≠ .error .multipleExtensionValues ∧
    basic_constraint_path_length cert ≠ .error .multipleExtensionValues ∧
    (∀ u, key_usage cert u ≠ .error .multipleExtensionValues) ∧
    key_usages cert ≠ .error .multipleExtensionValues ∧
    (∀ u, extended_key_usage cert u ≠ .error .multipleExtensionValues) ∧
    extended_key_usages cert ≠ .error .multipleExtensionValues ∧
    subject_key_identifier cert ≠ .error .multipleExtensionValues ∧
    (∀ ty, authority_key_identifier cert ty ≠
      .error .multipleExtensionValues) ∧
    policies cert ≠ .error .multipleExtensionValues ∧
    (∀ p, policy cert p ≠ .error .multipleExtensionValues) ∧
    crl_distribution_points cert ≠ .error .multipleExtensionValues ∧
    ca_issuers cert ≠ .error .multipleExtensionValues ∧
    ocsp_responders cert ≠ .error .multipleExtensionValues := by
  have hg : ∀ extn_id : OID, get_decoded_extension_value cert extn_id ≠
      .error .multipleExtensionValues := strict_resolve_ne_mev a cert h
  have hbc : basic_constraint_ca cert ≠ .error .multipleExtensionValues := by
    cases hv : get_decoded_extension_value cert ID_CE_BASIC_CONSTRAINTS with
    | error e =>
      have he : e ≠ .multipleExtensionValues := fun hh => hg _ (hh ▸ hv)
      simp [basic_constraint_ca, hv, he]
    | ok v =>
      rcases v with _ | tv
      · simp [basic_constraint_ca, hv]
      · cases tv <;> simp [basic_constraint_ca, hv]
  have hbp : basic_constraint_path_length cert ≠
      .error .multipleExtensionValues := by
    cases hv : get_decoded_extension_value cert ID_CE_BASIC_CONSTRAINTS with
    | error e =>
      have he : e ≠ .multipleExtensionValues := fun hh => hg _ (hh ▸ hv)
      simp [basic_constraint_path_length, hv, he]
    | ok v =>
      rcases v with _ | tv
      · simp [basic_constraint_path_length, hv]
      · cases tv <;> simp [basic_constraint_path_length, hv]
  have hku : ∀ u, key_usage cert u ≠ .error .multipleExtensionValues := by
    intro u
    cases hv : get_decoded_extension_value cert ID_CE_KEY_USAGE with
    | error e =>
      have he : e ≠ .multipleExtensionValues := fun hh => hg _ (hh ▸ hv)
      simp [key_usage, hv, he]
    | ok v =>
      rcases v with _ | tv
      · simp [key_usage, hv]
      · cases tv <;> simp [key_usage, hv]
  have hkus : key_usages cert ≠ .error .multipleExtensionValues := by
    cases hv : get_decoded_extension_value cert ID_CE_KEY_USAGE with
    | error e =>
      have he : e ≠ .multipleExtensionValues := fun hh => hg _ (hh ▸ hv)
      simp [key_usages, hv, he]
    | ok v =>
      rcases v with _ | tv
      · simp [key_usages, hv]
      · cases tv <;> simp [key_usages, hv]
  have heku : ∀ u, extended_key_usage cert u ≠
      .error .multipleExtensionValues := by
    intro u
    cases hv : get_decoded_extension_value cert ID_CE_EXT_KEY_USAGE with
    | error e =>
      have he : e ≠ .multipleExtensionValues := fun hh => hg _ (hh ▸ hv)
      simp [extended_key_usage, hv, he]
    | ok v =>
      rcases v with _ | tv
      · simp [extended_key_usage, hv]
      · cases tv <;> simp [extended_key_usage, hv]
  have hekus : extended_key_usages cert ≠ .error .multipleExtensionValues := by
    cases hv : get_decoded_extension_value cert ID_CE_EXT_KEY_USAGE with
    | error e =>
      have he : e ≠ .multipleExtensionValues := fun hh => hg _ (hh ▸ hv)
      simp [extended_key_usages, hv, he]
    | ok v =>
      rcases v with _ | tv
      · simp [extended_key_usages, hv]
      · cases tv <;> simp [extended_key_usages, hv]
  have hski : subject_key_identifier cert ≠
      .error .multipleExtensionValues := hg ID_CE_SUBJECT_KEY_IDENTIFIER
  have haki : ∀ ty, authority_key_identifier cert ty ≠
      .error .multipleExtensionValues := by
    intro ty
    cases hv : get_decoded_extension_value cert
        ID_CE_AUTHORITY_KEY_IDENTIFIER with
    | error e =>
      have he : e ≠ .multipleExtensionValues := fun hh => hg _ (hh ▸ hv)
      simp [authority_key_identifier, hv, he]
    | ok v =>
      rcases v with _ | tv
      · simp [authority_key_identifier, hv]
      · cases tv <;> simp [authority_key_identifier, hv]
  have hpols : policies cert ≠ .error .multipleExtensionValues := by
    cases hv : get_decoded_extension_value cert
        ID_CE_CERTIFICATE_POLICIES with
    | error e =>
      have he : e ≠ .multipleExtensionValues := fun hh => hg _ (hh ▸ hv)
      simp [policies, hv, he]
    | ok v =>
      rcases v with _ | tv
      · simp [policies, hv]
      · cases tv <;> simp [policies, hv]
  have hpol : ∀ p, policy cert p ≠ .error .multipleExtensionValues := by
    intro p
    cases hv : policies cert with
    | error e =>
      have he : e ≠ .multipleExtensionValues := fun hh => hpols (hh ▸ hv)
      simp [policy, hv, he]
    | ok ps =>
      by_cases hps : ps.isEmpty
      · simp [policy, hv, hps]
      · cases hft : ps.filter (fun q => q.policy_identifier == p) with
        | nil => simp [policy, hv, hps, hft]
        | cons q t =>
          cases t with
          | nil => simp [policy, hv, hps, hft]
          | cons q2 t2 => simp [policy, hv, hps, hft]
  have hcrl : crl_distribution_points cert ≠
      .error .multipleExtensionValues := by
    cases hv : get_decoded_extension_value cert
        ID_CE_CRL_DISTRIBUTION_POINTS with
    | error e =>
      have he : e ≠ .multipleExtensionValues := fun hh => hg _ (hh ▸ hv)
      simp [crl_distribution_points, hv, he]
    | ok v =>
      rcases v with _ | tv
      · simp [crl_distribution_points, hv]
      · cases tv <;> simp [crl_distribution_points, hv]
  have hcai : ca_issuers cert ≠ .error .multipleExtensionValues := by
    cases hv : get_decoded_extension_value cert
        ID_PE_AUTHORITY_INFO_ACCESS with
    | error e =>
      have he : e ≠ .multipleExtensionValues := fun hh => hg _ (hh ▸ hv)
      simp [ca_issuers, hv, he]
    | ok v =>
      rcases v with _ | tv
      · simp [ca_issuers, hv]
      · cases tv <;> simp [ca_issuers, hv]
  have hocsp : ocsp_responders cert ≠ .error .multipleExtensionValues := by
    cases hv : get_decoded_extension_value cert
        ID_PE_AUTHORITY_INFO_ACCESS with
    | error e =>
      have he : e ≠ .multipleExtensionValues := fun hh => hg _ (hh ▸ hv)
      simp [ocsp_responders, hv, he]
    | ok v =>
      rcases v with _ | tv
      · simp [ocsp_responders, hv]
      · cases tv <;> simp [ocsp_responders, hv]
  exact ⟨hg, hbc, hbp, hku, hkus, heku, hekus, hski, haki, hpols, hpol,
    hcrl, hcai, hocsp⟩

/-- A well-formed single-extension certificate used to instantiate the
strict-construction hypotheses. -/
def sampleStrictAsn1 : ASN1Certificate :=
  ⟨⟨2, 1, ⟨some 0, some 100⟩,
    some [⟨ID_CE_BASIC_CONSTRAINTS, true, ⟨[48], some (.basicConstraints true none)⟩⟩]⟩⟩

/-- The certificate object strict construction yields on `sampleStrictAsn1`. -/
def sampleStrictCert : Certificate := ⟨sampleStrictAsn1⟩

theorem c1_strict_no_multiple_extension_values_witness :
    Certificate.init sampleStrictAsn1 true = .ok sampleStrictCert ∧
    get_decoded_extension_value sampleStrictCert ID_CE_KEY_USAGE ≠
      .error .multipleExtensionValues ∧
    policies sampleStrictCert ≠ .error .multipleExtensionValues := by
  have h : Certificate.init sampleStrictAsn1 true = .ok sampleStrictCert := rfl
  have hc := c1_strict_no_multiple_extension_values sampleStrictAsn1
    sampleStrictCert h
  exact ⟨h, hc.1 ID_CE_KEY_USAGE, hc.2.2.2.2.2.2.2.2.2.1⟩

/-! ## C2 -/

lemma isEmpty_map {α β : Type} (f : α → β) (l : List α) :
    (l.map f).isEmpty = l.isEmpty := by
  cases l <;> rfl

lemma any_map_general {α β : Type} (f : α → β) (p : β → Bool) (l : List α) :
    (l.map f).any p = l.any (fun x => p (f x)) := by
  induction l with
  | nil => rfl
  | cons x t ih => simp [List.any_cons, ih]

lemma gdevs_canonical (cert : Certificate) (i : OID) :
    get_decoded_extension_values cert i =
      if ((certExtensions cert).filter (fun e => e.extnID == i)).isEmpty then
        .ok []
      else if ((certExtensions cert).filter (fun e => e.extnID == i)).any
          (fun e => e.extnValue.decoded_value.isNone) then
        .error (.corruptExtension i)
      else
        .ok (((certExtensions cert).filter (fun e => e.extnID == i)).filterMap
          (fun e => e.extnValue.decoded_value)) := by
  simp only [get_decoded_extension_values]
  rw [isEmpty_map, List.map_map, any_map_general, List.filterMap_map]
  rfl

lemma length_filterMap_of_all_isSome {α β : Type} (f : α → Option β)
    (l : List α) (h : ∀ x ∈ l, (f x).isSome) :
    (l.filterMap f).length = l.length := by
  induction l with
  | nil => simp
  | cons x t ih =>
    obtain ⟨v, hv⟩ := Option.isSome_iff_exists.mp (h x (by simp))
    simp [List.filterMap_cons, hv, ih (fun y hy => h y (by simp [hy]))]

lemma isEmpty_eq_false_of_ne_nil {α : Type} {l : List α} (h : l ≠ []) :
    l.isEmpty = false := by
  cases l with
  | nil => exact absurd rfl h
  | cons a t => rfl

lemma isSome_of_any_isNone_false {l : List Extension}
    (h : l.any (fun e => e.extnValue.decoded_value.isNone) = false) :
    ∀ x ∈ l, (x.extnValue.decoded_value).isSome := by
  intro x hx
  have h2 := List.any_eq_false.mp h x hx
  rcases hdx : x.extnValue.decoded_value with _ | v
  · rw [hdx] at h2
    simp at h2
  · simp [hdx]

/-- C2 (amended): single-value resolution returns `none` exactly when no
extension with the identifier exists; fails with the corrupt-extension
error when any matching entry failed to decode (this check precedes the
multiplicity check); fails with the multiple-extension-values error when
more than one matching extension exists and all of them decoded; and
returns the single decoded value otherwise. -/
theorem c2_resolve_single_characterization (cert : Certificate) (extn_id : OID) :
    (get_decoded_extension_value cert extn_id = .ok none ↔
      (certExtensions cert).filter (fun e => e.extnID == extn_id) = []) ∧
    ((certExtensions cert).filter (fun e => e.extnID == extn_id) ≠ [] →
      ((certExtensions cert).filter (fun e => e.extnID == extn_id)).any
        (fun e => e.extnValue.decoded_value.isNone) = true →
      get_decoded_extension_value cert extn_id =
        .error (.corruptExtension extn_id)) ∧
    (1 < ((certExtensions cert).filter (fun e => e.extnID == extn_id)).length →
      (∀ e ∈ (certExtensions cert).filter (fun e => e.extnID == extn_id),
        e.extnValue.decoded_value.isSome) →
      get_decoded_extension_value cert extn_id =
        .error .multipleExtensionValues) ∧
    (∀ e v, (certExtensions cert).filter (fun e2 => e2.extnID == extn_id) = [e] →
      e.extnValue.decoded_value = some v →
      get_decoded_extension_value cert extn_id = .ok (some v)) := by
  have hcanon := gdevs_canonical cert extn_id
  refine ⟨?_, ?_, ?_, ?_⟩
  · constructor
    · intro h
      by_contra hne
      rw [isEmpty_eq_false_of_ne_nil hne] at hcanon
      simp only [Bool.false_eq_true, if_false] at hcanon
      by_cases hany : ((certExtensions cert).filter
          (fun e => e.extnID == extn_id)).any
            (fun e => e.extnValue.decoded_value.isNone) = true
      · rw [if_pos hany] at hcanon
        simp [get_decoded_extension_value, hcanon] at h
      · rw [if_neg hany] at hcanon
        have hall := isSome_of_any_isNone_false
          (Bool.eq_false_iff.mpr (fun hh => hany hh))
        have hlenfm := length_filterMap_of_all_isSome
          (fun x => x.extnValue.decoded_value)
          ((certExtensions cert).filter (fun e => e.extnID == extn_id)) hall
        cases hfm : ((certExtensions cert).filter
            (fun e => e.extnID == extn_id)).filterMap
              (fun x => x.extnValue.decoded_value) with
        | nil =>
          rw [hfm] at hlenfm
          exact hne (List.length_eq_zero.mp hlenfm.symm)
        | cons v rest =>
          cases rest with
          | nil => simp [get_decoded_extension_value, hcanon, hfm] at h
          | cons w rs => simp [get_decoded_extension_value, hcanon, hfm] at h
    · intro h
      simp [get_decoded_extension_value, get_decoded_extension_values, h]
  · intro hne hany
    rw [isEmpty_eq_false_of_ne_nil hne] at hcanon
    simp only [Bool.false_eq_true, if_false] at hcanon
    rw [if_pos hany] at hcanon
    simp [get_decoded_extension_value, hcanon]
  · intro hlen hall
    have hne : (certExtensions cert).filter
        (fun e => e.extnID == extn_id) ≠ [] := by
      intro h
      rw [h] at hlen
      simp at hlen
    rw [isEmpty_eq_false_of_ne_nil hne] at hcanon
    simp only [Bool.false_eq_true, if_false] at hcanon
    have hany : ((certExtensions cert).filter
        (fun e => e.extnID == extn_id)).any
          (fun e => e.extnValue.decoded_value.isNone) = false := by
      rw [List.any_eq_false]
      intro x hx
      have := hall x hx
      rcases hdx : x.extnValue.decoded_value with _ | v
      · rw [hdx] at this
        simp at this
      · simp [hdx]
    rw [hany] at hcanon
    simp only [Bool.false_eq_true, if_false] at hcanon
    have hlenfm := length_filterMap_of_all_isSome
      (fun x => x.extnValue.decoded_value)
      ((certExtensions cert).filter (fun e => e.extnID == extn_id)) hall
    cases hfm : ((certExtensions cert).filter
        (fun e => e.extnID == extn_id)).filterMap
          (fun x => x.extnValue.decoded_value) with
    | nil =>
      exfalso
      rw [hfm] at hlenfm
      simp at hlenfm
      omega
    | cons v rest =>
      cases rest with
      | nil =>
        exfalso
        rw [hfm] at hlenfm
        simp at hlenfm
        omega
      | cons w rs =>
        simp [get_decoded_extension_value, hcanon, hfm]
  · intro e v hfl hd
    simp [get_decoded_extension_value, get_decoded_extension_values, hfl, hd]

theorem c2_resolve_single_characterization_witness :
    get_decoded_extension_value sampleStrictCert ID_CE_BASIC_CONSTRAINTS =
      .ok (some (.basicConstraints true none)) ∧
    get_decoded_extension_value sampleStrictCert ID_CE_KEY_USAGE = .ok none := by
  have hbc := c2_resolve_single_characterization sampleStrictCert
    ID_CE_BASIC_CONSTRAINTS
  have hku := c2_resolve_single_characterization sampleStrictCert
    ID_CE_KEY_USAGE
  exact ⟨hbc.2.2.2
      ⟨ID_CE_BASIC_CONSTRAINTS, true, ⟨[48], some (.basicConstraints true none)⟩⟩
      (.basicConstraints true none) rfl rfl,
    hku.1.mpr rfl⟩

/-- A certificate with two extensions of the same OID, one of which failed
to decode; only constructible in lenient mode. -/
def dupCorruptCert : Certificate :=
  ⟨⟨⟨2, 1, ⟨some 0, some 100⟩,
    some [⟨ID_CE_BASIC_CONSTRAINTS, true, ⟨[48], some (.basicConstraints true none)⟩⟩,
          ⟨ID_CE_BASIC_CONSTRAINTS, true, ⟨[49], none⟩⟩]⟩⟩⟩

/-- C2 counterexample: with two extensions matching the identifier, one of
them undecodable, single-value resolution raises the corrupt-extension
error, not the multiple-extension-values error the claim requires for every
multi-match case. -/
theorem c2_resolve_single_counterexample :
    1 < ((certExtensions dupCorruptCert).filter
      (fun e => e.extnID == ID_CE_BASIC_CONSTRAINTS)).length ∧
    get_decoded_extension_value dupCorruptCert ID_CE_BASIC_CONSTRAINTS =
      .error (.corruptExtension ID_CE_BASIC_CONSTRAINTS) ∧
    get_decoded_extension_value dupCorruptCert ID_CE_BASIC_CONSTRAINTS ≠
      .error .multipleExtensionValues := by
  have h : get_decoded_extension_value dupCorruptCert ID_CE_BASIC_CONSTRAINTS =
      .error (.corruptExtension ID_CE_BASIC_CONSTRAINTS) := rfl
  refine ⟨by decide, h, ?_⟩
  rw [h]
  simp

/-! ## C3 -/

lemma one_lt_count_of_lt {α : Type} [BEq α] [LawfulBEq α] :
    ∀ (l : List α) (i j : Nat) (hi : i < l.length) (hj : j < l.length),
      i < j → l[i] = l[j] → 1 < l.count l[i] := by
  intro l
  induction l with
  | nil =>
    intro i j hi
    simp at hi
  | cons x t ih =>
    intro i j hi hj hij heq
    cases i with
    | zero =>
      cases j with
      | zero => omega
      | succ j2 =>
        have hj2 : j2 < t.length := by simpa using hj
        have hxj : x = t[j2] := by simpa using heq
        have hpos : 0 < t.count x := by
          rw [hxj]
          exact List.count_pos_iff.mpr (List.getElem_mem hj2)
        simp only [List.getElem_cons_zero, List.count_cons_self]
        omega
    | succ i2 =>
      cases j with
      | zero => omega
      | succ j2 =>
        have hi2 : i2 < t.length := by simpa using hi
        have hj2 : j2 < t.length := by simpa using hj
        have h2 := ih i2 j2 hi2 hj2 (by omega) (by simpa using heq)
        have hcc : t.count t[i2] ≤ (x :: t).count t[i2] := by
          rw [List.count_cons]
          exact Nat.le_add_right _ _
        simp only [List.getElem_cons_succ]
        omega

lemma one_lt_count_of_two_indices {α : Type} [BEq α] [LawfulBEq α]
    (l : List α) (i j : Nat) (hi : i < l.length) (hj : j < l.length)
    (hij : i ≠ j) (heq : l[i] = l[j]) : 1 < l.count l[i] := by
  rcases Nat.lt_or_ge i j with hlt | hge
  · exact one_lt_count_of_lt l i j hi hj hlt heq
  · have hlt : j < i := by omega
    rw [heq]
    exact one_lt_count_of_lt l j i hj hi hlt heq.symm

/-- C3: a decoded certificate whose extension sequence holds two extensions
(at distinct positions) sharing an OID is rejected by strict construction
with the duplicate-extension ASN1Error, while lenient construction of the
same decoded bytes succeeds. -/
theorem c3_duplicate_extension_strict_vs_lenient (a : ASN1Certificate)
    (i j : Nat) (hi : i < (certExtensionsOf a).length)
    (hj : j < (certExtensionsOf a).length) (hij : i ≠ j)
    (hoid : (certExtensionsOf a)[i].extnID = (certExtensionsOf a)[j].extnID) :
    Certificate.init a true = .error .multipleExtensions ∧
    Certificate.init a false = .ok ⟨a⟩ := by
  have hmev : has_multiple_extension_values a = true := by
    unfold has_multiple_extension_values
    simp only [List.any_eq_true]
    have hil : i < ((certExtensionsOf a).map (fun e => e.extnID)).length := by
      simpa using hi
    have hjl : j < ((certExtensionsOf a).map (fun e => e.extnID)).length := by
      simpa using hj
    have hgeq : ((certExtensionsOf a).map (fun e => e.extnID))[i] =
        ((certExtensionsOf a).map (fun e => e.extnID))[j] := by
      simpa [List.getElem_map] using hoid
    have hcnt := one_lt_count_of_two_indices
      ((certExtensionsOf a).map (fun e => e.extnID)) i j hil hjl hij hgeq
    exact ⟨((certExtensionsOf a).map (fun e => e.extnID))[i],
      List.getElem_mem hil, by simpa using hcnt⟩
  constructor
  · simp [Certificate.init, hmev]
  · simp [Certificate.init]

/-- The extension list of `dupCorruptCert.asn1_cert` has its duplicate at
positions 0 and 1. -/
theorem c3_duplicate_extension_strict_vs_lenient_witness :
    Certificate.init dupCorruptCert.asn1_cert true =
      .error .multipleExtensions ∧
    Certificate.init dupCorruptCert.asn1_cert false = .ok dupCorruptCert :=
  c3_duplicate_extension_strict_vs_lenient dupCorruptCert.asn1_cert 0 1
    (by decide) (by decide) (by decide) (by decide)

/-! ## C4 -/

/-- C4: with decodable validity instants, the general validity check is
inclusive at both bounds while the expiry and not-yet-valid checks are
strict; in particular at the notAfter instant the certificate is still
temporally valid but not expired, and at the notBefore instant it is valid
but not "not yet valid". -/
theorem c4_temporal_bounds (cert : Certificate) (nb na : Time)
    (hnb : not_before cert = .ok nb) (hna : not_after cert = .ok na) :
    (∀ t, is_temporally_valid_at cert t = .ok (decide (nb ≤ t ∧ t ≤ na))) ∧
    (∀ now, is_expired cert now = .ok (decide (na < now))) ∧
    (∀ now, is_not_yet_valid cert now = .ok (decide (now < nb))) ∧
    (nb ≤ na → is_temporally_valid_at cert na = .ok true) ∧
    is_expired cert na = .ok false ∧
    (nb ≤ na → is_temporally_valid_at cert nb = .ok true) ∧
    is_not_yet_valid cert nb = .ok false := by
  have h1 : ∀ t, is_temporally_valid_at cert t =
      .ok (decide (nb ≤ t ∧ t ≤ na)) := by
    intro t
    by_cases h : nb ≤ t
    · simp [is_temporally_valid_at, hnb, hna, h]
    · simp [is_temporally_valid_at, hnb, hna, h]
  have h2 : ∀ now, is_expired cert now = .ok (decide (na < now)) := by
    intro now
    simp [is_expired, hna]
  have h3 : ∀ now, is_not_yet_valid cert now = .ok (decide (now < nb)) := by
    intro now
    simp [is_not_yet_valid, hnb]
  refine ⟨h1, h2, h3, ?_, ?_, ?_, ?_⟩
  · intro hle
    rw [h1 na]
    simp [hle]
  · rw [h2 na]
    simp
  · intro hle
    rw [h1 nb]
    simp [hle]
  · rw [h3 nb]
    simp

theorem c4_temporal_bounds_witness :
    is_temporally_valid_at sampleStrictCert 100 = .ok true ∧
    is_expired sampleStrictCert 100 = .ok false ∧
    is_temporally_valid_at sampleStrictCert 0 = .ok true ∧
    is_not_yet_valid sampleStrictCert 0 = .ok false := by
  have h := c4_temporal_bounds sampleStrictCert 0 100 rfl rfl
  exact ⟨h.2.2.2.1 (by decide), h.2.2.2.2.1, h.2.2.2.2.2.1 (by decide),
    h.2.2.2.2.2.2⟩

/-! ## C5 -/

lemma flatten_filter_map (p : GeneralName → Bool)
    (ls : List (List GeneralName)) :
    (ls.map (fun san => (san.filter p).map (fun n => n.componentValue))).flatten
      = (ls.flatten.filter p).map (fun n => n.componentValue) := by
  induction ls with
  | nil => rfl
  | cons s t ih =>
    simp [List.flatten_cons, List.filter_append, List.map_append, ih]

/-- C5: on a (leniently decoded) certificate whose SAN extension values are
the GeneralNames lists `ls`, the SAN accessor returns their concatenation
in source order with duplicates preserved, and the per-type projections
filter that flattened sequence by tag. -/
theorem c5_san_flattening (cert : Certificate) (sans : List TypedValue)
    (ls : List (List GeneralName))
    (h1 : get_decoded_extension_values cert ID_CE_SUBJECT_ALT_NAME = .ok sans)
    (h2 : asGeneralNamesList sans = some ls) :
    subject_alternative_names cert = .ok ls.flatten ∧
    (∀ san_type, get_subject_alt_names_by_type cert san_type =
      .ok ((ls.flatten.filter (fun n => n.componentKey == san_type)).map
        (fun n => n.componentValue))) ∧
    subject_dns_names cert =
      .ok ((ls.flatten.filter (fun n => n.componentKey == DNS_NAME)).map
        (fun n => n.componentValue)) := by
  have hA : subject_alternative_names cert = .ok ls.flatten := by
    simp [subject_alternative_names, h1, h2]
  have hB : ∀ san_type, get_subject_alt_names_by_type cert san_type =
      .ok ((ls.flatten.filter (fun n => n.componentKey == san_type)).map
        (fun n => n.componentValue)) := by
    intro san_type
    simp [get_subject_alt_names_by_type, h1, h2, flatten_filter_map]
  exact ⟨hA, hB, hB DNS_NAME⟩

/-- A lenient-mode certificate carrying two SAN extensions, one DNS name
each. -/
def dualSanCert : Certificate :=
  ⟨⟨⟨2, 2, ⟨some 0, some 100⟩,
    some [⟨ID_CE_SUBJECT_ALT_NAME, false,
            ⟨[1], some (.generalNames [⟨DNS_NAME, "a.com"⟩])⟩⟩,
          ⟨ID_CE_SUBJECT_ALT_NAME, false,
            ⟨[2], some (.generalNames [⟨DNS_NAME, "b.com"⟩])⟩⟩]⟩⟩⟩

theorem c5_san_flattening_witness :
    Certificate.init dualSanCert.asn1_cert false = .ok dualSanCert ∧
    subject_alternative_names dualSanCert =
      .ok [⟨DNS_NAME, "a.com"⟩, ⟨DNS_NAME, "b.com"⟩] ∧
    subject_dns_names dualSanCert = .ok ["a.com", "b.com"] := by
  have h := c5_san_flattening dualSanCert
    [.generalNames [⟨DNS_NAME, "a.com"⟩], .generalNames [⟨DNS_NAME, "b.com"⟩]]
    [[⟨DNS_NAME, "a.com"⟩], [⟨DNS_NAME, "b.com"⟩]] rfl rfl
  refine ⟨rfl, ?_, ?_⟩
  · simpa using h.1
  · simpa using h.2.2

/-! ## C6 -/

/-- C6: a policies list asserting the same OID more than once makes the
policy lookup fail with the duplicate-policy error; with no
certificate-policies extension, `policies` is the empty list and `policy`
is `none` for every OID. -/
theorem c6_policy_duplicates_and_absence (cert : Certificate) :
    (∀ ps p_oid, policies cert = .ok ps →
      1 < (ps.filter (fun p => p.policy_identifier == p_oid)).length →
      policy cert p_oid = .error (.duplicatePolicy p_oid)) ∧
    ((certExtensions cert).filter
        (fun e => e.extnID == ID_CE_CERTIFICATE_POLICIES) = [] →
      policies cert = .ok [] ∧
      ∀ p_oid, policy cert p_oid = .ok none) := by
  constructor
  · intro ps p_oid hps hlen
    have hne : ps ≠ [] := by
      intro h
      rw [h] at hlen
      simp at hlen
    cases hft : ps.filter (fun p => p.policy_identifier == p_oid) with
    | nil =>
      rw [hft] at hlen
      simp at hlen
    | cons q t =>
      cases t with
      | nil =>
        rw [hft] at hlen
        simp at hlen
      | cons q2 t2 =>
        simp [policy, hps, isEmpty_eq_false_of_ne_nil hne, hft]
  · intro hext
    have hv : get_decoded_extension_value cert ID_CE_CERTIFICATE_POLICIES =
        .ok none := by
      simp [get_decoded_extension_value, get_decoded_extension_values, hext]
    have hpols : policies cert = .ok [] := by
      simp [policies, hv]
    refine ⟨hpols, fun p_oid => ?_⟩
    simp [policy, hpols]

/-- A certificate with one CertificatePolicies extension asserting the same
policy OID twice. -/
def dupPolicyCert : Certificate :=
  ⟨⟨⟨2, 3, ⟨some 0, some 100⟩,
    some [⟨ID_CE_CERTIFICATE_POLICIES, false,
      ⟨[5], some (.certificatePolicies
        [⟨[1, 2, 3], []⟩, ⟨[1, 2, 3], [7]⟩])⟩⟩]⟩⟩⟩

/-- A certificate with no extensions at all. -/
def noExtCert : Certificate := ⟨⟨⟨2, 4, ⟨some 0, some 100⟩, none⟩⟩⟩

theorem c6_policy_duplicates_and_absence_witness :
    policy dupPolicyCert [1, 2, 3] = .error (.duplicatePolicy [1, 2, 3]) ∧
    policies noExtCert = .ok [] ∧
    policy noExtCert [1, 2, 3] = .ok none := by
  have h1 := (c6_policy_duplicates_and_absence dupPolicyCert).1
    [⟨[1, 2, 3], []⟩, ⟨[1, 2, 3], [7]⟩] [1, 2, 3] rfl (by decide)
  have h2 := (c6_policy_duplicates_and_absence noExtCert).2 rfl
  exact ⟨h1, h2.1, h2.2 [1, 2, 3]⟩

/-! ## C7 -/

/-- C7: the fingerprint is the digest of the DER encoding under the chosen
algorithm for each name in the fixed supported set, and fails with the
unsupported-hash-algorithm error for every name outside it. -/
theorem c7_fingerprint_supported_set (digest : String → List Nat → List Nat)
    (enc : ASN1Certificate → List Nat) (cert : Certificate)
    (hashfunc : String) :
    (hashfunc ∈ supported_hash_algorithms →
      fingerprint digest enc cert hashfunc =
        .ok (digest hashfunc (to_der enc cert))) ∧
    (hashfunc ∉ supported_hash_algorithms →
      fingerprint digest enc cert hashfunc =
        .error .unsupportedHashAlgorithm) ∧
    supported_hash_algorithms =
      ["md5", "sha1", "sha224", "sha256", "sha384", "sha512"] := by
  refine ⟨?_, ?_, rfl⟩
  · intro h
    simp [fingerprint, h]
  · intro h
    simp [fingerprint, h]

theorem c7_fingerprint_supported_set_witness :
    fingerprint (fun _ d => d) (fun _ => [48, 130]) sampleStrictCert "sha256"
      = .ok [48, 130] ∧
    fingerprint (fun _ d => d) (fun _ => [48, 130]) sampleStrictCert "foo"
      = .error .unsupportedHashAlgorithm := by
  have hs := c7_fingerprint_supported_set (fun _ d => d) (fun _ => [48, 130])
    sampleStrictCert "sha256"
  have hf := c7_fingerprint_supported_set (fun _ d => d) (fun _ => [48, 130])
    sampleStrictCert "foo"
  exact ⟨hs.1 (by decide), hf.2.1 (by decide)⟩

/-! ## C8 -/

/-- C8: identity comparison is exactly byte equality of the canonical
encodings, hence reflexive and symmetric, whatever the external encoder
computes. -/
theorem c8_is_identical_to_encoding_equality
    (enc : ASN1Certificate → List Nat) (a b : Certificate) :
    (is_identical_to enc a b = true ↔ to_der enc a = to_der enc b) ∧
    is_identical_to enc a a = true ∧
    is_identical_to enc a b = is_identical_to enc b a := by
  refine ⟨?_, ?_, ?_⟩
  · simp [is_identical_to]
  · simp [is_identical_to]
  · simp only [is_identical_to]
    rw [Bool.eq_iff_iff]
    simp only [beq_iff_eq]
    exact eq_comm

/-! ## C9 -/

/-- C9: over a framed block sequence holding one decodable block followed
by one undecodable block, the non-skipping batch reader yields exactly the
one certificate and then stops with the propagated error, producing nothing
further; the skipping batch reader yields the one certificate and
terminates cleanly. -/
theorem c9_batch_reader_error_policy
    (dec : List Nat → Bool → Except ASN1Error ASN1Certificate)
    (strict_der : Bool) (good bad : List Nat) (c : Certificate)
    (e : ASN1Error)
    (hg : from_der dec good strict_der = .ok c)
    (hb : from_der dec bad strict_der = .error e) :
    certs_from_pem dec false strict_der [good, bad] = ([c], some e) ∧
    certs_from_pem dec true strict_der [good, bad] = ([c], none) := by
  constructor <;> simp [certs_from_pem, hg, hb]

/-- A toy structural decoder: accepts the block [48], rejects anything
else. -/
def toyDec : List Nat → Bool → Except ASN1Error ASN1Certificate :=
  fun der_string _ =>
    if der_string = [48] then .ok sampleStrictAsn1
    else .error (.structuralError 0)

theorem c9_batch_reader_error_policy_witness :
    certs_from_pem toyDec false true [[48], [0]] =
      ([sampleStrictCert], some (.structuralError 0)) ∧
    certs_from_pem toyDec true true [[48], [0]] =
      ([sampleStrictCert], none) :=
  c9_batch_reader_error_policy toyDec true [48] [0] sampleStrictCert
    (.structuralError 0) rfl rfl

/-! ## C10 -/

/-- C10: when the AuthorityKeyIdentifier extension is present and
well-formed but the requested component is absent, the accessor returns
`none`, the same value as when the extension is absent altogether, so the
two cases are indistinguishable; the no-argument call defaults to the
key-identifier component. -/
theorem c10_akid_component_absent_indistinguishable (cert : Certificate)
    (ty : AkidComponent) :
    (∀ kid issuer serial,
      get_decoded_extension_value cert ID_CE_AUTHORITY_KEY_IDENTIFIER =
        .ok (some (.authorityKeyIdentifier kid issuer serial)) →
      akidComponent kid issuer serial ty = none →
      authority_key_identifier cert ty = .ok none) ∧
    (get_decoded_extension_value cert ID_CE_AUTHORITY_KEY_IDENTIFIER =
        .ok none →
      authority_key_identifier cert ty = .ok none) ∧
    authority_key_identifier_default cert =
      authority_key_identifier cert .keyIdentifier := by
  refine ⟨?_, ?_, rfl⟩
  · intro kid issuer serial hv hcomp
    simp [authority_key_identifier, hv, hcomp]
  · intro hv
    simp [authority_key_identifier, hv]

/-- An AuthorityKeyIdentifier extension with only the authorityCertIssuer
component present. -/
def akidPartialCert : Certificate :=
  ⟨⟨⟨2, 5, ⟨some 0, some 100⟩,
    some [⟨ID_CE_AUTHORITY_KEY_IDENTIFIER, false,
      ⟨[9], some (.authorityKeyIdentifier none
        (some [⟨URI_NAME, "ldap"⟩]) none)⟩⟩]⟩⟩⟩

theorem c10_akid_component_absent_indistinguishable_witness :
    authority_key_identifier akidPartialCert .keyIdentifier = .ok none ∧
    authority_key_identifier noExtCert .keyIdentifier = .ok none ∧
    authority_key_identifier_default akidPartialCert =
      authority_key_identifier akidPartialCert .keyIdentifier := by
  have h1 := (c10_akid_component_absent_indistinguishable akidPartialCert
    .keyIdentifier).1 none (some [⟨URI_NAME, "ldap"⟩]) none rfl rfl
  have h2 := (c10_akid_component_absent_indistinguishable noExtCert
    .keyIdentifier).2.1 rfl
  have h3 := (c10_akid_component_absent_indistinguishable akidPartialCert
    .keyIdentifier).2.2
  exact ⟨h1, h2, h3⟩

end CertSpec
